import Mathlib

/-!
Verification of the core logic of the AMS-APP audit-management demo
(`AMS-APP.py`): three in-memory record stores (audit engagements, audit
findings, corrective actions), a sequential-ID generator, record-creation
operations with required-field validation, in-place status updates, and
dashboard aggregation (percent closed, overdue count, recent views).

Modelling conventions:
* Python strings are `String`; slicing `s[n:]` is `strDrop s n`
  (character-based, as in Python).
* Python `int(s)` on a string of decimal digits is `strToNatOpt s`;
  a raised `ValueError` is `none`.
* Python `str(n)` for a natural number is `natRepr n`, and
  `s.zfill(w)` is `zfill s w`.
* Python dates are day numbers (`Int`) ordered by `<`; raw file bytes
  are `List Nat`; absent optional values are `none`.
* Mutation of the session stores is explicit state passing; a Python
  exception propagating out of an operation is an `Option`/`Except`
  failure, leaving the prior state in place.
-/

/-- The decimal digit character for `d < 10` (Python digit rendering). -/
def digitChar (d : Nat) : Char := Char.ofNat (48 + d)

/-- Little-endian decimal digits of `n`, with explicit fuel
(`fuel ≥ n` suffices); empty for `n = 0`. -/
def toDigitsRev : Nat → Nat → List Char
  | 0, _ => []
  | fuel + 1, n => if n = 0 then [] else digitChar (n % 10) :: toDigitsRev fuel (n / 10)

/-- Model of Python `str(n)` for a natural number `n`: its decimal
representation without leading zeros. -/
def natRepr (n : Nat) : String :=
  if n = 0 then "0" else ⟨(toDigitsRev n n).reverse⟩

/-- Model of Python `s.zfill(w)` on an unsigned digit string: left-pad
with `'0'` to width `w` (unchanged if already at least that wide). -/
def zfill (s : String) (w : Nat) : String :=
  ⟨List.replicate (w - s.data.length) '0' ++ s.data⟩

/-- The numeric value of a decimal digit character, `none` otherwise. -/
def digitVal? (c : Char) : Option Nat :=
  if c.isDigit then some (c.toNat - 48) else none

/-- Accumulating decimal parser over a character list; fails on any
non-digit character. -/
def parseDigitsAux (acc : Nat) : List Char → Option Nat
  | [] => some acc
  | c :: cs =>
    match digitVal? c with
    | none => none
    | some d => parseDigitsAux (acc * 10 + d) cs

/-- Model of Python `int(s)` restricted to (possibly zero-padded)
decimal digit strings: `none` models a raised `ValueError` (empty or
non-digit input). -/
def strToNatOpt (s : String) : Option Nat :=
  if s.data.isEmpty then none else parseDigitsAux 0 s.data

/-- Model of Python slicing `s[n:]` (character-based). -/
def strDrop (s : String) (n : Nat) : String := ⟨s.data.drop n⟩

/-- Model of Python `max` on a list of naturals (`0` on the empty list;
the source only applies it to non-empty lists). -/
def listMax (l : List Nat) : Nat := l.foldl max 0

/-- The numeric suffix of an identifier with respect to a prefix length:
`int(item['ID'][len(pfx):])` in the source. -/
def idSuffix (pfx : String) (id : String) : Option Nat :=
  strToNatOpt (strDrop id pfx.length)

/-- `generate_id` from the source: `pfx + "001"` on an empty store,
otherwise the prefix followed by `str(max_suffix + 1).zfill(3)`.
A `none` models Python `int` raising on a malformed ID suffix. -/
def generate_id {α : Type} (pfx : String) (current_list : List α)
    (getId : α → String) : Option String :=
  if current_list.isEmpty then some (pfx ++ "001")
  else do
    let suffixes ← current_list.mapM (fun item => idSuffix pfx (getId item))
    some (pfx ++ zfill (natRepr (listMax suffixes + 1)) 3)

/-- An audit engagement record (the dict built in `add_audit_engagement`). -/
structure Engagement where
  ID : String
  Title : String
  Department : String
  AuditType : String
  Auditors : String
  Auditees : String
  StartDate : Int
  EndDate : Int
  Status : String
  AuditReportName : Option String
  AuditReportData : Option (List Nat)
deriving DecidableEq, Repr

/-- An audit finding record (the dict built in `add_audit_finding`). -/
structure Finding where
  ID : String
  AuditEngagementID : String
  Category : String
  Description : String
  EvidenceName : Option String
  EvidenceData : Option (List Nat)
  RiskLevel : String
  RootCause : String
  Recommendation : String
  Status : String
deriving DecidableEq, Repr

/-- A corrective action record (the dict built in `add_corrective_action`). -/
structure CorrectiveAction where
  ID : String
  FindingID : String
  ResponsiblePerson : String
  ActionDescription : String
  DueDate : Int
  Status : String
  FollowUpEvidenceName : Option String
  FollowUpEvidenceData : Option (List Nat)
deriving DecidableEq, Repr

/-- The three session stores (`st.session_state`), all empty at session
start. -/
structure AppState where
  audit_engagements : List Engagement
  audit_findings : List Finding
  corrective_actions : List CorrectiveAction
deriving DecidableEq, Repr

/-- Form input for `add_audit_engagement` (field values collected by the
presentation layer). -/
structure EngagementInput where
  title : String
  department : String
  audit_type : String
  auditors : String
  auditees : String
  start_date : Int
  end_date : Int
  audit_report_name : Option String
  audit_report_data : Option (List Nat)
deriving DecidableEq, Repr

/-- Form input for `add_audit_finding`. -/
structure FindingInput where
  audit_engagement_id : String
  category : String
  description : String
  risk_level : String
  root_cause : String
  recommendation : String
  evidence_name : Option String
  evidence_data : Option (List Nat)
deriving DecidableEq, Repr

/-- Form input for `add_corrective_action`. -/
structure ActionInput where
  finding_id : String
  responsible_person : String
  action_description : String
  due_date : Int
  follow_up_evidence_name : Option String
  follow_up_evidence_data : Option (List Nat)
deriving DecidableEq, Repr

/-- `add_audit_engagement`: generate an ID with prefix `"AE"`, append the
new record with `Status = "Draft"`, and surface the new ID (the source
reports it in the success message). -/
def add_audit_engagement (inp : EngagementInput) (store : List Engagement) :
    Option (List Engagement × String) :=
  (generate_id "AE" store (fun r => r.ID)).map fun engagement_id =>
    (store ++ [{
      ID := engagement_id
      Title := inp.title
      Department := inp.department
      AuditType := inp.audit_type
      Auditors := inp.auditors
      Auditees := inp.auditees
      StartDate := inp.start_date
      EndDate := inp.end_date
      Status := "Draft"
      AuditReportName := inp.audit_report_name
      AuditReportData := inp.audit_report_data }], engagement_id)

/-- `add_audit_finding`: generate an ID with prefix `"F"`, append the new
record with `Status = "Open"`, and return the new ID. -/
def add_audit_finding (inp : FindingInput) (store : List Finding) :
    Option (List Finding × String) :=
  (generate_id "F" store (fun r => r.ID)).map fun finding_id =>
    (store ++ [{
      ID := finding_id
      AuditEngagementID := inp.audit_engagement_id
      Category := inp.category
      Description := inp.description
      EvidenceName := inp.evidence_name
      EvidenceData := inp.evidence_data
      RiskLevel := inp.risk_level
      RootCause := inp.root_cause
      Recommendation := inp.recommendation
      Status := "Open" }], finding_id)

/-- `add_corrective_action`: generate an ID with prefix `"CA"`, append
the new record with `Status = "Pending"`, and surface the new ID. -/
def add_corrective_action (inp : ActionInput) (store : List CorrectiveAction) :
    Option (List CorrectiveAction × String) :=
  (generate_id "CA" store (fun r => r.ID)).map fun action_id =>
    (store ++ [{
      ID := action_id
      FindingID := inp.finding_id
      ResponsiblePerson := inp.responsible_person
      ActionDescription := inp.action_description
      DueDate := inp.due_date
      Status := "Pending"
      FollowUpEvidenceName := inp.follow_up_evidence_name
      FollowUpEvidenceData := inp.follow_up_evidence_data }], action_id)

/-- State-level `add_audit_engagement`: only the engagements store is
written. -/
def createEngagementOp (inp : EngagementInput) (s : AppState) :
    Option (AppState × String) :=
  (add_audit_engagement inp s.audit_engagements).map fun p =>
    ({ s with audit_engagements := p.1 }, p.2)

/-- State-level `add_audit_finding`: only the findings store is written. -/
def createFindingOp (inp : FindingInput) (s : AppState) :
    Option (AppState × String) :=
  (add_audit_finding inp s.audit_findings).map fun p =>
    ({ s with audit_findings := p.1 }, p.2)

/-- State-level `add_corrective_action`: only the corrective-actions
store is written. -/
def createActionOp (inp : ActionInput) (s : AppState) :
    Option (AppState × String) :=
  (add_corrective_action inp s.corrective_actions).map fun p =>
    ({ s with corrective_actions := p.1 }, p.2)

/-- The engagement-form submit handler: Python truthiness of
`ae_title and ae_department and ae_auditors` means all three strings
are non-empty; otherwise the error message is shown and no record is
created. The returned state is the store after the interaction. -/
def submitEngagementForm (inp : EngagementInput) (s : AppState) :
    AppState × Except String String :=
  if inp.title ≠ "" ∧ inp.department ≠ "" ∧ inp.auditors ≠ "" then
    match createEngagementOp inp s with
    | some (s', id) => (s', Except.ok id)
    | none => (s, Except.error "ValueError")
  else
    (s, Except.error "ValidationError")

/-- The finding-form submit handler: requires a selected engagement ID,
a non-empty description and a non-empty risk level. -/
def submitFindingForm (inp : FindingInput) (s : AppState) :
    AppState × Except String String :=
  if inp.audit_engagement_id ≠ "" ∧ inp.description ≠ "" ∧ inp.risk_level ≠ "" then
    match createFindingOp inp s with
    | some (s', id) => (s', Except.ok id)
    | none => (s, Except.error "ValueError")
  else
    (s, Except.error "ValidationError")

/-- The corrective-action-form submit handler: requires a selected
finding ID, responsible person, description, and due date (a Python
`date` is always truthy, so the date imposes no constraint here). -/
def submitActionForm (inp : ActionInput) (s : AppState) :
    AppState × Except String String :=
  if inp.finding_id ≠ "" ∧ inp.responsible_person ≠ "" ∧ inp.action_description ≠ "" then
    match createActionOp inp s with
    | some (s', id) => (s', Except.ok id)
    | none => (s, Except.error "ValueError")
  else
    (s, Except.error "ValidationError")

/-- The "Update Engagement Status" button loop: overwrite the `Status`
of the first record whose ID matches, leave everything else unchanged,
and do nothing when no ID matches (the loop just runs off the end). -/
def updateEngagementStatus (target_id new_status : String) :
    List Engagement → List Engagement
  | [] => []
  | ae :: rest =>
    if ae.ID = target_id then { ae with Status := new_status } :: rest
    else ae :: updateEngagementStatus target_id new_status rest

/-- The "Update Finding Status" button loop. -/
def updateFindingStatus (target_id new_status : String) :
    List Finding → List Finding
  | [] => []
  | f :: rest =>
    if f.ID = target_id then { f with Status := new_status } :: rest
    else f :: updateFindingStatus target_id new_status rest

/-- The "Update Corrective Action Status" button loop. -/
def updateActionStatus (target_id new_status : String) :
    List CorrectiveAction → List CorrectiveAction
  | [] => []
  | ca :: rest =>
    if ca.ID = target_id then { ca with Status := new_status } :: rest
    else ca :: updateActionStatus target_id new_status rest

/-- Dashboard KPI: `% Findings Closed` as an exact rational
(`closed / total * 100` when the store is non-empty, else `0`); the
source computes this in floating point, which is exact at the values
the claims mention. -/
def percent_closed (findings : List Finding) : ℚ :=
  let total_findings := findings.length
  let closed_findings := findings.countP (fun f => f.Status == "Closed")
  if total_findings > 0 then ((closed_findings : ℚ) / (total_findings : ℚ)) * 100
  else 0

/-- Rendering of a non-negative rational to one decimal place, modelling
the `f"{x:.1f}"` format at values where the float is exact. -/
def formatFixed1 (q : ℚ) : String :=
  let t : Nat := (round (q * 10) : ℤ).toNat
  natRepr (t / 10) ++ "." ++ natRepr (t % 10)

/-- The `% Findings Closed` metric string, `f"{percent_closed:.1f}%"`. -/
def percentClosedMetric (findings : List Finding) : String :=
  formatFixed1 (percent_closed findings) ++ "%"

/-- Dashboard KPI: `Overdue Corrective Actions` — count of actions whose
status is neither "Verified" nor "Closed" and whose due date is strictly
before today (`datetime.now().date()` at query time). -/
def overdue_actions (actions : List CorrectiveAction) (today : Int) : Nat :=
  actions.countP (fun ca =>
    (!(ca.Status == "Verified" || ca.Status == "Closed")) &&
      decide (ca.DueDate < today))

/-- Model of pandas `DataFrame.tail(5)`: the last five rows in order
(all rows when there are fewer than five). -/
def tail5 {α : Type} (l : List α) : List α := l.drop (l.length - 5)

/-- The records shown in the dashboard "Latest Audit Engagements" table:
`pd.DataFrame(store).tail(5)` — the full records, no column dropped. -/
def dashboardRecentEngagements (s : AppState) : List Engagement :=
  tail5 s.audit_engagements

/-- The records shown in the dashboard "Latest Audit Findings" table. -/
def dashboardRecentFindings (s : AppState) : List Finding :=
  tail5 s.audit_findings

/-- The columns of `pd.DataFrame(st.session_state.audit_engagements)`:
the keys of the engagement dict, in insertion order. `set_index('ID')`
moves `ID` to the index but it remains displayed. -/
def engagementColumns : List String :=
  ["ID", "Title", "Department", "Audit Type", "Auditor(s)", "Auditee(s)",
   "Start Date", "End Date", "Status", "Audit Report Name", "Audit Report Data"]

/-- The columns of `pd.DataFrame(st.session_state.audit_findings)`. -/
def findingColumns : List String :=
  ["ID", "Audit Engagement ID", "Category", "Description", "Evidence Name",
   "Evidence Data", "Risk Level", "Root Cause", "Recommendation", "Status"]

/-- Columns shown by the dashboard "Latest Audit Engagements" table: the
dashboard renders the DataFrame without dropping any column. -/
def dashboardEngagementDisplayColumns : List String := engagementColumns

/-- Columns shown by the dashboard "Latest Audit Findings" table. -/
def dashboardFindingDisplayColumns : List String := findingColumns

/-- Columns shown by the "View All Engagements" tab, which drops
`'Audit Report Data'` before display (unlike the dashboard). -/
def viewAllEngagementColumns : List String :=
  engagementColumns.filter (fun c => c ≠ "Audit Report Data")

/-- The user interactions that mutate the stores: the three form
submissions (validated creates) and the three status-update buttons.
`Reachable s` means `s` arises from the empty session by some sequence
of these interactions. -/
inductive Reachable : AppState → Prop
  | init : Reachable ⟨[], [], []⟩
  | submitEngagement (inp : EngagementInput) {s : AppState} :
      Reachable s → Reachable (submitEngagementForm inp s).1
  | submitFinding (inp : FindingInput) {s : AppState} :
      Reachable s → Reachable (submitFindingForm inp s).1
  | submitAction (inp : ActionInput) {s : AppState} :
      Reachable s → Reachable (submitActionForm inp s).1
  | updateEngagement (target_id new_status : String) {s : AppState} :
      Reachable s →
      Reachable { s with audit_engagements := (updateEngagementStatus target_id new_status s.audit_engagements) }
  | updateFinding (target_id new_status : String) {s : AppState} :
      Reachable s →
      Reachable { s with audit_findings := (updateFindingStatus target_id new_status s.audit_findings) }
  | updateAction (target_id new_status : String) {s : AppState} :
      Reachable s →
      Reachable { s with corrective_actions := (updateActionStatus target_id new_status s.corrective_actions) }

/-- The ID invariant of one store: every ID's numeric suffix (for that
store's prefix) parses, the suffixes are strictly increasing in creation
order, and the ID strings are pairwise distinct. -/
def StoreIdInv (pfx : String) (ids : List String) : Prop :=
  (∃ ns : List Nat,
      ids.map (fun id => idSuffix pfx id) = ns.map some ∧ ns.Chain' (· < ·)) ∧
  ids.Nodup

/-- The ID invariant of all three stores. -/
def StateIdInv (s : AppState) : Prop :=
  StoreIdInv "AE" (s.audit_engagements.map (fun r => r.ID)) ∧
  StoreIdInv "F" (s.audit_findings.map (fun r => r.ID)) ∧
  StoreIdInv "CA" (s.corrective_actions.map (fun r => r.ID))

/-- Folding the creation operation over a list of form inputs: the
`N` successive creations of the testable property, on the findings
store (`none` propagates a Python exception). -/
def addFindingsN : List FindingInput → List Finding → Option (List Finding)
  | [], store => some store
  | inp :: rest, store =>
    (add_audit_finding inp store).bind fun p => addFindingsN rest p.1

/-- The numeric suffix values of a store's IDs (defined when the
invariant holds; `0` is a dummy for unparsable suffixes). -/
def suffVals (pfx : String) (ids : List String) : List Nat :=
  ids.map fun id => (idSuffix pfx id).getD 0

/-! ### Decimal rendering and parsing lemmas -/

theorem digitVal?_digitChar {d : Nat} (h : d < 10) :
    digitVal? (digitChar d) = some d := by
  interval_cases d <;> decide

theorem parseDigitsAux_append (l₁ l₂ : List Char) (acc : Nat) :
    parseDigitsAux acc (l₁ ++ l₂) =
      (parseDigitsAux acc l₁).bind fun a => parseDigitsAux a l₂ := by
  induction l₁ generalizing acc with
  | nil => rfl
  | cons c cs ih =>
    simp only [List.cons_append, parseDigitsAux]
    cases digitVal? c with
    | none => rfl
    | some d => exact ih _

theorem parseDigitsAux_toDigitsRev (fuel : Nat) :
    ∀ n acc, n ≤ fuel →
      parseDigitsAux acc ((toDigitsRev fuel n).reverse) =
        some (acc * 10 ^ (toDigitsRev fuel n).length + n) := by
  induction fuel with
  | zero =>
    intro n acc h
    interval_cases n
    simp [toDigitsRev, parseDigitsAux]
  | succ fuel ih =>
    intro n acc h
    by_cases hn : n = 0
    · subst hn
      simp [toDigitsRev, parseDigitsAux]
    · have hdiv : n / 10 ≤ fuel := by omega
      simp only [toDigitsRev, if_neg hn, List.reverse_cons, List.length_cons]
      rw [parseDigitsAux_append, ih (n / 10) acc hdiv]
      simp only [parseDigitsAux, digitVal?_digitChar (Nat.mod_lt n (by omega))]
      have hb : ((some (acc * 10 ^ (toDigitsRev fuel (n / 10)).length + n / 10)).bind
          fun a => some (a * 10 + n % 10)) =
          some ((acc * 10 ^ (toDigitsRev fuel (n / 10)).length + n / 10) * 10 + n % 10) := rfl
      rw [hb]
      congr 1
      have hdm : 10 * (n / 10) + n % 10 = n := Nat.div_add_mod n 10
      calc (acc * 10 ^ (toDigitsRev fuel (n / 10)).length + n / 10) * 10 + n % 10
          = acc * (10 ^ (toDigitsRev fuel (n / 10)).length * 10) +
              (10 * (n / 10) + n % 10) := by ring
        _ = acc * 10 ^ ((toDigitsRev fuel (n / 10)).length + 1) + n := by
              rw [hdm, pow_succ]

theorem toDigitsRev_ne_nil {fuel n : Nat} (hf : 1 ≤ fuel) (hn : 1 ≤ n) :
    toDigitsRev fuel n ≠ [] := by
  obtain ⟨f, rfl⟩ : ∃ f, fuel = f + 1 := ⟨fuel - 1, by omega⟩
  have hn' : n ≠ 0 := by omega
  simp [toDigitsRev, hn']

theorem natRepr_data_ne_nil (n : Nat) : (natRepr n).data ≠ [] := by
  by_cases hn : n = 0
  · subst hn; decide
  · simp only [natRepr, if_neg hn]
    simpa using toDigitsRev_ne_nil (by omega) (by omega)

/-- `int(str(n)) = n`: the decimal representation round-trips. -/
theorem strToNatOpt_natRepr (n : Nat) : strToNatOpt (natRepr n) = some n := by
  by_cases hn : n = 0
  · subst hn; decide
  · have hne := natRepr_data_ne_nil n
    simp only [natRepr, if_neg hn] at hne ⊢
    simp only [strToNatOpt, List.isEmpty_iff, if_neg hne]
    simpa using parseDigitsAux_toDigitsRev n n 0 le_rfl

theorem parseDigitsAux_replicate_zero (k : Nat) (cs : List Char) :
    parseDigitsAux 0 (List.replicate k '0' ++ cs) = parseDigitsAux 0 cs := by
  induction k with
  | zero => rfl
  | succ k ih => simpa [List.replicate_succ, parseDigitsAux, digitVal?] using ih

/-- `int(str(n).zfill(w)) = n`: left zero-padding does not change the
parsed value. -/
theorem strToNatOpt_zfill (s : String) (w : Nat) (h : s.data ≠ []) :
    strToNatOpt (zfill s w) = strToNatOpt s := by
  have hne' : List.replicate (w - s.data.length) '0' ++ s.data ≠ [] := by simp [h]
  show (if (List.replicate (w - s.data.length) '0' ++ s.data).isEmpty = true then none
        else parseDigitsAux 0 (List.replicate (w - s.data.length) '0' ++ s.data)) =
      strToNatOpt s
  rw [if_neg (by simpa [List.isEmpty_iff] using hne'), parseDigitsAux_replicate_zero,
    strToNatOpt, if_neg (by simpa [List.isEmpty_iff] using h)]

/-- `int(str(n).zfill(w)) = n`: left zero-padding does not change the
parsed value. -/
theorem strToNatOpt_zfill_natRepr (n w : Nat) :
    strToNatOpt (zfill (natRepr n) w) = some n := by
  rw [strToNatOpt_zfill _ _ (natRepr_data_ne_nil n), strToNatOpt_natRepr]

theorem strDrop_append (p t : String) : strDrop (p ++ t) p.length = t := by
  show String.mk (((p ++ t).data).drop p.data.length) = t
  rw [String.data_append, List.drop_left]

/-- The suffix of a freshly generated ID parses back to the number it
was generated from. -/
theorem idSuffix_gen (pfx : String) (n : Nat) :
    idSuffix pfx (pfx ++ zfill (natRepr n) 3) = some n := by
  rw [idSuffix, strDrop_append, strToNatOpt_zfill_natRepr]

/-! ### `listMax` lemmas -/

theorem foldl_max_init_le (l : List Nat) : ∀ a : Nat, a ≤ l.foldl max a := by
  induction l with
  | nil => simp
  | cons x t ih =>
    intro a
    exact le_trans (le_max_left a x) (ih (max a x))

theorem le_foldl_max (l : List Nat) :
    ∀ a : Nat, ∀ x ∈ l, x ≤ l.foldl max a := by
  induction l with
  | nil => simp
  | cons y t ih =>
    intro a x hx
    rcases List.mem_cons.mp hx with rfl | hx
    · exact le_trans (le_max_right a x) (foldl_max_init_le t _)
    · exact ih _ x hx

theorem le_listMax {l : List Nat} {x : Nat} (hx : x ∈ l) : x ≤ listMax l :=
  le_foldl_max l 0 x hx

theorem foldl_max_mem (l : List Nat) :
    ∀ a : Nat, l.foldl max a = a ∨ l.foldl max a ∈ l := by
  induction l with
  | nil => simp
  | cons x t ih =>
    intro a
    rcases ih (max a x) with h | h
    · rcases max_choice a x with hm | hm
      · left
        rw [hm] at h
        rw [List.foldl_cons, hm, h]
      · right
        rw [hm] at h
        rw [List.foldl_cons, hm, h]
        exact List.mem_cons_self x t
    · right
      rw [List.foldl_cons]
      exact List.mem_cons_of_mem x h

theorem listMax_mem {l : List Nat} (hl : l ≠ []) : listMax l ∈ l := by
  cases l with
  | nil => exact absurd rfl hl
  | cons x t =>
    rw [listMax, List.foldl_cons, Nat.zero_max]
    rcases foldl_max_mem t x with h | h
    · simp [h]
    · exact List.mem_cons_of_mem x h

theorem foldl_max_perm {l₁ l₂ : List Nat} (h : l₁.Perm l₂) :
    ∀ a : Nat, l₁.foldl max a = l₂.foldl max a := by
  induction h with
  | nil => intro a; rfl
  | cons x _ ih => intro a; simp only [List.foldl_cons]; exact ih _
  | swap x y l =>
    intro a
    simp only [List.foldl_cons]
    rw [max_assoc, max_comm y x, ← max_assoc]
  | trans _ _ ih₁ ih₂ => intro a; exact (ih₁ a).trans (ih₂ a)

theorem listMax_perm {l₁ l₂ : List Nat} (h : l₁.Perm l₂) :
    listMax l₁ = listMax l₂ :=
  foldl_max_perm h 0

theorem listMax_append_singleton (l : List Nat) (x : Nat) :
    listMax (l ++ [x]) = max (listMax l) x := by
  rw [listMax, listMax, List.foldl_append, List.foldl_cons, List.foldl_nil]

/-! ### `generate_id` characterization -/

theorem isSome_eq_some_getD {β : Type} {o : Option β} (d : β) (h : o.isSome) :
    o = some (o.getD d) := by
  cases o with
  | none => simp at h
  | some b => rfl

theorem mapM_eq_some_map {α β : Type} (f : α → Option β) (g : α → β) (l : List α)
    (h : ∀ x ∈ l, f x = some (g x)) : l.mapM f = some (l.map g) := by
  induction l with
  | nil => rfl
  | cons a t ih =>
    simp only [List.mapM_cons, List.map_cons]
    rw [h a (by simp), ih (fun x hx => h x (by simp [hx]))]
    rfl

/-- Uniform description of `generate_id` on a store whose ID suffixes
all parse: it always succeeds and returns the prefix followed by the
zero-padded successor of the maximal suffix (`listMax [] + 1 = 1`
matches the literal `"001"` of the empty-store branch). -/
theorem generate_id_eq {α : Type} (pfx : String) (getId : α → String) (l : List α)
    (h : ∀ x ∈ l, (idSuffix pfx (getId x)).isSome) :
    generate_id pfx l getId =
      some (pfx ++ zfill (natRepr (listMax (suffVals pfx (l.map getId)) + 1)) 3) := by
  have h001 : zfill (natRepr (0 + 1)) 3 = "001" := by decide
  cases l with
  | nil =>
    show some (pfx ++ "001") = _
    simp only [List.map_nil]
    rw [show suffVals pfx ([] : List String) = [] from rfl, show listMax [] = 0 from rfl,
      h001]
  | cons x t =>
    have hmapM : (x :: t).mapM (fun item => idSuffix pfx (getId item)) =
        some ((x :: t).map fun item => (idSuffix pfx (getId item)).getD 0) :=
      mapM_eq_some_map _ _ _ (fun y hy => isSome_eq_some_getD 0 (h y hy))
    simp only [generate_id, List.isEmpty_cons, Bool.false_eq_true, if_false]
    rw [show ((x :: t).mapM (fun item => idSuffix pfx (getId item)) >>=
          fun suffixes => some (pfx ++ zfill (natRepr (listMax suffixes + 1)) 3)) =
        ((x :: t).mapM (fun item => idSuffix pfx (getId item))).bind
          (fun suffixes => some (pfx ++ zfill (natRepr (listMax suffixes + 1)) 3)) from rfl,
      hmapM]
    simp only [Option.some_bind]
    rw [suffVals, List.map_map]
    rfl

/-! ### The store ID invariant and its preservation -/

theorem StoreIdInv.suffix_isSome {pfx : String} {ids : List String}
    (h : StoreIdInv pfx ids) : ∀ id ∈ ids, (idSuffix pfx id).isSome := by
  obtain ⟨⟨ns, hmap, _⟩, _⟩ := h
  intro id hid
  have hmem : idSuffix pfx id ∈ ids.map (fun id => idSuffix pfx id) :=
    List.mem_map_of_mem _ hid
  rw [hmap] at hmem
  obtain ⟨n, _, heq⟩ := List.mem_map.mp hmem
  rw [← heq]
  rfl

theorem suffVals_eq {pfx : String} {ids : List String} {ns : List Nat}
    (hmap : ids.map (fun id => idSuffix pfx id) = ns.map some) :
    suffVals pfx ids = ns := by
  have h1 : suffVals pfx ids =
      (ids.map fun id => idSuffix pfx id).map (fun o => o.getD 0) := by
    rw [suffVals, List.map_map]
    rfl
  rw [h1, hmap, List.map_map]
  have hcomp : ((fun o : Option Nat => o.getD 0) ∘ some) = id := by
    funext n
    rfl
  rw [hcomp, List.map_id]

/-- Appending a freshly generated ID preserves the store ID invariant:
its suffix `max + 1` parses, strictly exceeds every existing suffix, and
the new ID string is new. -/
theorem StoreIdInv_append {pfx : String} {ids : List String} (h : StoreIdInv pfx ids) :
    StoreIdInv pfx (ids ++ [pfx ++ zfill (natRepr (listMax (suffVals pfx ids) + 1)) 3]) := by
  obtain ⟨⟨ns, hmap, hchain⟩, hnodup⟩ := h
  rw [suffVals_eq hmap]
  constructor
  · refine ⟨ns ++ [listMax ns + 1], ?_, ?_⟩
    · rw [List.map_append, hmap, List.map_append]
      simp [idSuffix_gen]
    · rw [List.chain'_append]
      refine ⟨hchain, List.chain'_singleton _, ?_⟩
      intro x hx y hy
      simp only [List.head?_cons, Option.mem_def, Option.some.injEq] at hy
      subst hy
      have hxmem : x ∈ ns := List.mem_of_mem_getLast? hx
      have := le_listMax hxmem
      omega
  · have hnotmem : (pfx ++ zfill (natRepr (listMax ns + 1)) 3) ∉ ids := by
      intro hmem
      have hsuf : idSuffix pfx (pfx ++ zfill (natRepr (listMax ns + 1)) 3) ∈
          ids.map (fun id => idSuffix pfx id) := List.mem_map_of_mem _ hmem
      rw [hmap, idSuffix_gen] at hsuf
      obtain ⟨n, hn, heq⟩ := List.mem_map.mp hsuf
      have hn' : n = listMax ns + 1 := Option.some.inj heq
      subst hn'
      have := le_listMax hn
      omega
    simp [List.nodup_append, hnodup, hnotmem]

theorem map_ID_updateEngagementStatus (target_id new_status : String)
    (l : List Engagement) :
    (updateEngagementStatus target_id new_status l).map (fun r => r.ID) =
      l.map (fun r => r.ID) := by
  induction l with
  | nil => rfl
  | cons ae rest ih =>
    rw [updateEngagementStatus]
    split
    · simp
    · simpa using ih

theorem map_ID_updateFindingStatus (target_id new_status : String)
    (l : List Finding) :
    (updateFindingStatus target_id new_status l).map (fun r => r.ID) =
      l.map (fun r => r.ID) := by
  induction l with
  | nil => rfl
  | cons f rest ih =>
    rw [updateFindingStatus]
    split
    · simp
    · simpa using ih

theorem map_ID_updateActionStatus (target_id new_status : String)
    (l : List CorrectiveAction) :
    (updateActionStatus target_id new_status l).map (fun r => r.ID) =
      l.map (fun r => r.ID) := by
  induction l with
  | nil => rfl
  | cons ca rest ih =>
    rw [updateActionStatus]
    split
    · simp
    · simpa using ih

theorem StoreIdInv_add_engagement (inp : EngagementInput) (l : List Engagement)
    (h : StoreIdInv "AE" (l.map fun r => r.ID)) :
    ∀ p, add_audit_engagement inp l = some p →
      StoreIdInv "AE" (p.1.map fun r => r.ID) := by
  intro p hp
  obtain ⟨l', newId⟩ := p
  have hpre : ∀ x ∈ l, (idSuffix "AE" x.ID).isSome := fun x hx =>
    h.suffix_isSome _ (List.mem_map_of_mem _ hx)
  rw [add_audit_engagement, generate_id_eq "AE" _ l hpre] at hp
  simp only [Option.map_some', Option.some.injEq, Prod.mk.injEq] at hp
  obtain ⟨hl', hid⟩ := hp
  subst hl'
  simp only [List.map_append, List.map_cons, List.map_nil]
  exact StoreIdInv_append h

theorem StoreIdInv_add_finding (inp : FindingInput) (l : List Finding)
    (h : StoreIdInv "F" (l.map fun r => r.ID)) :
    ∀ p, add_audit_finding inp l = some p →
      StoreIdInv "F" (p.1.map fun r => r.ID) := by
  intro p hp
  obtain ⟨l', newId⟩ := p
  have hpre : ∀ x ∈ l, (idSuffix "F" x.ID).isSome := fun x hx =>
    h.suffix_isSome _ (List.mem_map_of_mem _ hx)
  rw [add_audit_finding, generate_id_eq "F" _ l hpre] at hp
  simp only [Option.map_some', Option.some.injEq, Prod.mk.injEq] at hp
  obtain ⟨hl', hid⟩ := hp
  subst hl'
  simp only [List.map_append, List.map_cons, List.map_nil]
  exact StoreIdInv_append h

theorem StoreIdInv_add_action (inp : ActionInput) (l : List CorrectiveAction)
    (h : StoreIdInv "CA" (l.map fun r => r.ID)) :
    ∀ p, add_corrective_action inp l = some p →
      StoreIdInv "CA" (p.1.map fun r => r.ID) := by
  intro p hp
  obtain ⟨l', newId⟩ := p
  have hpre : ∀ x ∈ l, (idSuffix "CA" x.ID).isSome := fun x hx =>
    h.suffix_isSome _ (List.mem_map_of_mem _ hx)
  rw [add_corrective_action, generate_id_eq "CA" _ l hpre] at hp
  simp only [Option.map_some', Option.some.injEq, Prod.mk.injEq] at hp
  obtain ⟨hl', hid⟩ := hp
  subst hl'
  simp only [List.map_append, List.map_cons, List.map_nil]
  exact StoreIdInv_append h

theorem StateIdInv_submitEngagement (inp : EngagementInput) (s : AppState)
    (h : StateIdInv s) : StateIdInv (submitEngagementForm inp s).1 := by
  rw [submitEngagementForm]
  split
  · cases hc : createEngagementOp inp s with
    | none => simpa using h
    | some p =>
      rw [createEngagementOp] at hc
      cases ha : add_audit_engagement inp s.audit_engagements with
      | none => rw [ha] at hc; simp at hc
      | some q =>
        rw [ha] at hc
        simp only [Option.map_some', Option.some.injEq] at hc
        subst hc
        exact ⟨StoreIdInv_add_engagement inp _ h.1 q ha, h.2.1, h.2.2⟩
  · exact h

theorem StateIdInv_submitFinding (inp : FindingInput) (s : AppState)
    (h : StateIdInv s) : StateIdInv (submitFindingForm inp s).1 := by
  rw [submitFindingForm]
  split
  · cases hc : createFindingOp inp s with
    | none => simpa using h
    | some p =>
      rw [createFindingOp] at hc
      cases ha : add_audit_finding inp s.audit_findings with
      | none => rw [ha] at hc; simp at hc
      | some q =>
        rw [ha] at hc
        simp only [Option.map_some', Option.some.injEq] at hc
        subst hc
        exact ⟨h.1, StoreIdInv_add_finding inp _ h.2.1 q ha, h.2.2⟩
  · exact h

theorem StateIdInv_submitAction (inp : ActionInput) (s : AppState)
    (h : StateIdInv s) : StateIdInv (submitActionForm inp s).1 := by
  rw [submitActionForm]
  split
  · cases hc : createActionOp inp s with
    | none => simpa using h
    | some p =>
      rw [createActionOp] at hc
      cases ha : add_corrective_action inp s.corrective_actions with
      | none => rw [ha] at hc; simp at hc
      | some q =>
        rw [ha] at hc
        simp only [Option.map_some', Option.some.injEq] at hc
        subst hc
        exact ⟨h.1, h.2.1, StoreIdInv_add_action inp _ h.2.2 q ha⟩
  · exact h


theorem StateIdInv_init : StateIdInv ⟨[], [], []⟩ := by
  refine ⟨⟨⟨[], ?_, ?_⟩, ?_⟩, ⟨⟨[], ?_, ?_⟩, ?_⟩, ⟨⟨[], ?_, ?_⟩, ?_⟩⟩ <;> simp

theorem StateIdInv_updateEngagement (target_id new_status : String) (s : AppState)
    (h : StateIdInv s) :
    StateIdInv { s with audit_engagements :=
      (updateEngagementStatus target_id new_status s.audit_engagements) } := by
  refine ⟨?_, h.2.1, h.2.2⟩
  show StoreIdInv "AE" ((updateEngagementStatus target_id new_status
    s.audit_engagements).map fun r => r.ID)
  rw [map_ID_updateEngagementStatus]
  exact h.1

theorem StateIdInv_updateFinding (target_id new_status : String) (s : AppState)
    (h : StateIdInv s) :
    StateIdInv { s with audit_findings :=
      (updateFindingStatus target_id new_status s.audit_findings) } := by
  refine ⟨h.1, ?_, h.2.2⟩
  show StoreIdInv "F" ((updateFindingStatus target_id new_status
    s.audit_findings).map fun r => r.ID)
  rw [map_ID_updateFindingStatus]
  exact h.2.1

theorem StateIdInv_updateAction (target_id new_status : String) (s : AppState)
    (h : StateIdInv s) :
    StateIdInv { s with corrective_actions :=
      (updateActionStatus target_id new_status s.corrective_actions) } := by
  refine ⟨h.1, h.2.1, ?_⟩
  show StoreIdInv "CA" ((updateActionStatus target_id new_status
    s.corrective_actions).map fun r => r.ID)
  rw [map_ID_updateActionStatus]
  exact h.2.2

/-- Every reachable state satisfies the ID invariant of all stores. -/
theorem StateIdInv_of_Reachable {s : AppState} (h : Reachable s) : StateIdInv s := by
  induction h with
  | init => exact StateIdInv_init
  | submitEngagement inp _ ih => exact StateIdInv_submitEngagement inp _ ih
  | submitFinding inp _ ih => exact StateIdInv_submitFinding inp _ ih
  | submitAction inp _ ih => exact StateIdInv_submitAction inp _ ih
  | updateEngagement target_id new_status _ ih =>
    exact StateIdInv_updateEngagement target_id new_status _ ih
  | updateFinding target_id new_status _ ih =>
    exact StateIdInv_updateFinding target_id new_status _ ih
  | updateAction target_id new_status _ ih =>
    exact StateIdInv_updateAction target_id new_status _ ih

/-! ### Lemmas for sequential creation (C3) -/

theorem lt_pow_length_toDigitsRev (fuel : Nat) :
    ∀ n, n ≤ fuel → n < 10 ^ (toDigitsRev fuel n).length := by
  induction fuel with
  | zero =>
    intro n h
    interval_cases n
    simp [toDigitsRev]
  | succ fuel ih =>
    intro n h
    by_cases hn : n = 0
    · subst hn
      simp [toDigitsRev]
    · have hdiv : n / 10 ≤ fuel := by omega
      have hIH := ih (n / 10) hdiv
      simp only [toDigitsRev, if_neg hn, List.length_cons, pow_succ]
      have hP : 0 < 10 ^ (toDigitsRev fuel (n / 10)).length := Nat.pos_pow_of_pos _ (by omega)
      omega

/-- Past `999` the suffix outgrows the fixed width: `str(n).zfill(3)` has
four or more characters and is no longer padded. -/
theorem zfill_natRepr_ge_1000 (n : Nat) (h : 1000 ≤ n) :
    zfill (natRepr n) 3 = natRepr n ∧ 4 ≤ (natRepr n).data.length := by
  have hn : n ≠ 0 := by omega
  have hlen : 4 ≤ (natRepr n).data.length := by
    have hb := lt_pow_length_toDigitsRev n n le_rfl
    have hdata : (natRepr n).data = (toDigitsRev n n).reverse := by
      rw [natRepr, if_neg hn]
    rw [hdata, List.length_reverse]
    by_contra hcon
    push_neg at hcon
    have : 10 ^ (toDigitsRev n n).length ≤ 10 ^ 3 :=
      Nat.pow_le_pow_right (by omega) (by omega)
    omega
  refine ⟨?_, hlen⟩
  rw [zfill, show 3 - (natRepr n).data.length = 0 by omega]
  rw [List.replicate_zero, List.nil_append]

theorem listMax_range_map_succ : ∀ m : Nat,
    listMax ((List.range m).map fun k => k + 1) = m := by
  intro m
  induction m with
  | zero => rfl
  | succ m ih =>
    rw [List.range_succ, List.map_append, List.map_cons, List.map_nil,
      listMax_append_singleton, ih]
    omega

theorem suffVals_range_map (m : Nat) :
    suffVals "F" ((List.range m).map fun k => "F" ++ zfill (natRepr (k + 1)) 3) =
      (List.range m).map fun k => k + 1 := by
  rw [suffVals, List.map_map]
  refine List.map_congr_left ?_
  intro k _
  show (idSuffix "F" ("F" ++ zfill (natRepr (k + 1)) 3)).getD 0 = k + 1
  rw [idSuffix_gen]
  rfl

theorem addFindingsN_ids : ∀ (inputs : List FindingInput) (l : List Finding) (m : Nat),
    l.map (fun r => r.ID) = ((List.range m).map fun k => "F" ++ zfill (natRepr (k + 1)) 3) →
    ∃ l', addFindingsN inputs l = some l' ∧
      l'.map (fun r => r.ID) =
        ((List.range (m + inputs.length)).map fun k => "F" ++ zfill (natRepr (k + 1)) 3) := by
  intro inputs
  induction inputs with
  | nil =>
    intro l m hmap
    exact ⟨l, rfl, by simpa using hmap⟩
  | cons inp rest ih =>
    intro l m hmap
    have hpre : ∀ x ∈ l, (idSuffix "F" x.ID).isSome := by
      intro x hx
      have : x.ID ∈ l.map (fun r => r.ID) := List.mem_map_of_mem _ hx
      rw [hmap] at this
      obtain ⟨k, _, hk⟩ := List.mem_map.mp this
      rw [← hk, idSuffix_gen]
      rfl
    have hmax : listMax (suffVals "F" (l.map fun r => r.ID)) = m := by
      rw [hmap, suffVals_range_map, listMax_range_map_succ]
    have hadd := generate_id_eq "F" (fun r => r.ID) l hpre
    rw [hmax] at hadd
    obtain ⟨l', hl', hids⟩ := ih
      (l ++ [{
        ID := "F" ++ zfill (natRepr (m + 1)) 3
        AuditEngagementID := inp.audit_engagement_id
        Category := inp.category
        Description := inp.description
        EvidenceName := inp.evidence_name
        EvidenceData := inp.evidence_data
        RiskLevel := inp.risk_level
        RootCause := inp.root_cause
        Recommendation := inp.recommendation
        Status := "Open" }])
      (m + 1)
      (by
        rw [List.map_append, hmap, List.map_cons, List.map_nil, List.range_succ,
          List.map_append, List.map_cons, List.map_nil])
    refine ⟨l', ?_, ?_⟩
    · rw [addFindingsN, add_audit_finding, hadd, Option.map_some', Option.some_bind]
      exact hl'
    · rw [hids]
      have : m + 1 + rest.length = m + (rest.length + 1) := by omega
      rw [this]
      rfl

/-! ### Lemmas for the recent-activity views (C9) -/

theorem tail5_length {α : Type} (l : List α) : (tail5 l).length = min 5 l.length := by
  rw [tail5, List.length_drop]
  omega

theorem tail5_suffix {α : Type} (l : List α) :
    l.take (l.length - 5) ++ tail5 l = l := by
  rw [tail5, List.take_append_drop]

theorem tail5_of_short {α : Type} (l : List α) (h : l.length ≤ 5) : tail5 l = l := by
  rw [tail5, show l.length - 5 = 0 by omega, List.drop_zero]

/-! ### Claim theorems -/

/-- C1: for every prefix and every store whose records' IDs each carry a
parsable numeric suffix after the prefix, `generate_id` never fails, it
returns `pfx ++ "001"` on the empty store, and otherwise it returns the
prefix followed by the maximum existing numeric suffix plus one,
zero-padded to width 3. -/
theorem spec_C1_generate_id {α : Type} (pfx : String) (getId : α → String)
    (l : List α) (h : ∀ x ∈ l, (idSuffix pfx (getId x)).isSome) :
    (generate_id pfx l getId).isSome ∧
    (l = [] → generate_id pfx l getId = some (pfx ++ "001")) ∧
    (l ≠ [] → ∃ M, (∃ x ∈ l, idSuffix pfx (getId x) = some M) ∧
      (∀ x ∈ l, ∀ v, idSuffix pfx (getId x) = some v → v ≤ M) ∧
      generate_id pfx l getId = some (pfx ++ zfill (natRepr (M + 1)) 3)) := by
  have hgen := generate_id_eq pfx getId l h
  have hsv : suffVals pfx (l.map getId) =
      l.map fun x => (idSuffix pfx (getId x)).getD 0 := by
    rw [suffVals, List.map_map]
    rfl
  refine ⟨by rw [hgen]; rfl, fun hl => by subst hl; rfl, fun hl => ?_⟩
  refine ⟨listMax (l.map fun x => (idSuffix pfx (getId x)).getD 0), ?_, ?_,
    by rw [hgen, hsv]⟩
  · have hne : (l.map fun x => (idSuffix pfx (getId x)).getD 0) ≠ [] := by
      cases l with
      | nil => exact absurd rfl hl
      | cons x t => simp
    obtain ⟨x, hx, hval⟩ := List.mem_map.mp (listMax_mem hne)
    obtain ⟨v, hv⟩ := Option.isSome_iff_exists.mp (h x hx)
    refine ⟨x, hx, ?_⟩
    rw [hv]
    rw [hv] at hval
    simpa using hval
  · intro x hx v hv
    refine le_listMax (List.mem_map.mpr ⟨x, hx, ?_⟩)
    rw [hv]
    rfl

/-- C1 witness: a concrete one-record store with ID `"AE007"`. -/
theorem spec_C1_witness :
    (generate_id "AE" [(⟨"AE007", "t", "d", "IT", "a", "b", 0, 1, "Draft", none, none⟩ :
        Engagement)] (fun r => r.ID)).isSome ∧
    ([(⟨"AE007", "t", "d", "IT", "a", "b", 0, 1, "Draft", none, none⟩ : Engagement)] = [] →
      generate_id "AE" [(⟨"AE007", "t", "d", "IT", "a", "b", 0, 1, "Draft", none, none⟩ :
        Engagement)] (fun r => r.ID) = some ("AE" ++ "001")) ∧
    ([(⟨"AE007", "t", "d", "IT", "a", "b", 0, 1, "Draft", none, none⟩ : Engagement)] ≠ [] →
      ∃ M, (∃ x ∈ [(⟨"AE007", "t", "d", "IT", "a", "b", 0, 1, "Draft", none, none⟩ :
          Engagement)], idSuffix "AE" x.ID = some M) ∧
        (∀ x ∈ [(⟨"AE007", "t", "d", "IT", "a", "b", 0, 1, "Draft", none, none⟩ :
          Engagement)], ∀ v, idSuffix "AE" x.ID = some v → v ≤ M) ∧
        generate_id "AE" [(⟨"AE007", "t", "d", "IT", "a", "b", 0, 1, "Draft", none, none⟩ :
          Engagement)] (fun r => r.ID) = some ("AE" ++ zfill (natRepr (M + 1)) 3)) :=
  spec_C1_generate_id "AE" (fun r : Engagement => r.ID)
    [⟨"AE007", "t", "d", "IT", "a", "b", 0, 1, "Draft", none, none⟩] (by decide)

/-- C2: every state reachable from the empty session by create and
status-update interactions satisfies the ID invariant of all three
stores: suffixes parse and are strictly increasing in creation order,
and the ID strings are pairwise distinct. -/
theorem spec_C2_reachable_id_invariant {s : AppState} (h : Reachable s) :
    StateIdInv s :=
  StateIdInv_of_Reachable h

/-- C2 witness: the state after one concrete engagement creation. -/
theorem spec_C2_witness :
    StateIdInv (submitEngagementForm ⟨"t", "d", "IT", "a", "b", 0, 1, none, none⟩
      ⟨[], [], []⟩).1 :=
  spec_C2_reachable_id_invariant
    (Reachable.submitEngagement ⟨"t", "d", "IT", "a", "b", 0, 1, none, none⟩ Reachable.init)

/-- C3: `N` successive finding creations from the empty store never fail
and produce the IDs `F001, F002, ...` in order, zero-padded to width 3;
past `999` the suffix simply grows to four or more digits. -/
theorem spec_C3_sequential_ids (inputs : List FindingInput) :
    (∃ l', addFindingsN inputs [] = some l' ∧
      l'.map (fun r => r.ID) =
        ((List.range inputs.length).map fun k => "F" ++ zfill (natRepr (k + 1)) 3)) ∧
    (∀ n, 1000 ≤ n → zfill (natRepr n) 3 = natRepr n ∧ 4 ≤ (natRepr n).data.length) := by
  constructor
  · simpa using addFindingsN_ids inputs [] 0 (by simp)
  · exact fun n hn => zfill_natRepr_ge_1000 n hn

/-- C3 witness: two concrete creations yield `F001` then `F002`, and at
`1000` the suffix has four digits. -/
theorem spec_C3_witness :
    (∃ l', addFindingsN [⟨"AE001", "Major", "d", "Low", "r", "c", none, none⟩,
        ⟨"AE001", "Minor", "e", "High", "r", "c", none, none⟩] [] = some l' ∧
      l'.map (fun r => r.ID) =
        ((List.range 2).map fun k => "F" ++ zfill (natRepr (k + 1)) 3)) ∧
    (zfill (natRepr 1000) 3 = natRepr 1000 ∧ 4 ≤ (natRepr 1000).data.length) :=
  ⟨(spec_C3_sequential_ids _).1,
   (spec_C3_sequential_ids [⟨"AE001", "Major", "d", "Low", "r", "c", none, none⟩,
      ⟨"AE001", "Minor", "e", "High", "r", "c", none, none⟩]).2 1000 (by norm_num)⟩

/-- C5: if the engagement title, department, or auditors field is empty,
the form submission reports a `ValidationError` and returns the state
unchanged — no record is created. -/
theorem spec_C5_validation_error (inp : EngagementInput) (s : AppState)
    (h : inp.title = "" ∨ inp.department = "" ∨ inp.auditors = "") :
    submitEngagementForm inp s = (s, Except.error "ValidationError") := by
  rw [submitEngagementForm, if_neg]
  intro hcond
  rcases h with h | h | h
  · exact hcond.1 h
  · exact hcond.2.1 h
  · exact hcond.2.2 h

/-- C5 witness: empty title on a non-empty store leaves it untouched. -/
theorem spec_C5_witness :
    submitEngagementForm ⟨"", "d", "IT", "a", "b", 0, 1, none, none⟩
      ⟨[⟨"AE001", "t", "d", "IT", "a", "b", 0, 1, "Draft", none, none⟩], [], []⟩ =
    (⟨[⟨"AE001", "t", "d", "IT", "a", "b", 0, 1, "Draft", none, none⟩], [], []⟩,
      Except.error "ValidationError") :=
  spec_C5_validation_error _ _ (Or.inl rfl)

/-- C6: the status-update loops overwrite only the `Status` field of the
(first) record whose ID matches, leaving all its other fields and all
other records unchanged, and are a silent no-op when no ID matches —
shown for the engagement and corrective-action loops. -/
theorem spec_C6_status_update (target_id new_status : String) :
    ((∀ l : List Engagement, (∀ r ∈ l, r.ID ≠ target_id) →
        updateEngagementStatus target_id new_status l = l) ∧
      (∀ (l₁ l₂ : List Engagement) (r : Engagement), (∀ x ∈ l₁, x.ID ≠ target_id) →
        r.ID = target_id →
        updateEngagementStatus target_id new_status (l₁ ++ r :: l₂) =
          l₁ ++ { r with Status := new_status } :: l₂)) ∧
    ((∀ l : List CorrectiveAction, (∀ r ∈ l, r.ID ≠ target_id) →
        updateActionStatus target_id new_status l = l) ∧
      (∀ (l₁ l₂ : List CorrectiveAction) (r : CorrectiveAction),
        (∀ x ∈ l₁, x.ID ≠ target_id) → r.ID = target_id →
        updateActionStatus target_id new_status (l₁ ++ r :: l₂) =
          l₁ ++ { r with Status := new_status } :: l₂)) := by
  refine ⟨⟨?_, ?_⟩, ?_, ?_⟩
  · intro l hl
    induction l with
    | nil => rfl
    | cons ae rest ih =>
      rw [updateEngagementStatus, if_neg (hl ae (List.mem_cons_self ae rest)),
        ih fun r hr => hl r (List.mem_cons_of_mem ae hr)]
  · intro l₁ l₂ r hl₁ hr
    induction l₁ with
    | nil => simp [updateEngagementStatus, hr]
    | cons ae rest ih =>
      rw [List.cons_append, updateEngagementStatus,
        if_neg (hl₁ ae (List.mem_cons_self ae rest)),
        ih fun x hx => hl₁ x (List.mem_cons_of_mem ae hx), List.cons_append]
  · intro l hl
    induction l with
    | nil => rfl
    | cons ca rest ih =>
      rw [updateActionStatus, if_neg (hl ca (List.mem_cons_self ca rest)),
        ih fun r hr => hl r (List.mem_cons_of_mem ca hr)]
  · intro l₁ l₂ r hl₁ hr
    induction l₁ with
    | nil => simp [updateActionStatus, hr]
    | cons ca rest ih =>
      rw [List.cons_append, updateActionStatus,
        if_neg (hl₁ ca (List.mem_cons_self ca rest)),
        ih fun x hx => hl₁ x (List.mem_cons_of_mem ca hx), List.cons_append]

/-- C6 witness: updating `AE001` in a two-record store changes only that
record's status; updating an absent `CA999` changes nothing. -/
theorem spec_C6_witness :
    updateEngagementStatus "AE001" "Completed"
      [⟨"AE001", "t", "d", "IT", "a", "b", 0, 1, "Draft", none, none⟩,
       ⟨"AE002", "u", "e", "IT", "a", "b", 0, 1, "Draft", none, none⟩] =
      [⟨"AE001", "t", "d", "IT", "a", "b", 0, 1, "Completed", none, none⟩,
       ⟨"AE002", "u", "e", "IT", "a", "b", 0, 1, "Draft", none, none⟩] ∧
    updateActionStatus "CA999" "Closed"
      [⟨"CA001", "F001", "p", "act", 5, "Pending", none, none⟩] =
      [⟨"CA001", "F001", "p", "act", 5, "Pending", none, none⟩] :=
  ⟨(spec_C6_status_update "AE001" "Completed").1.2 []
      [⟨"AE002", "u", "e", "IT", "a", "b", 0, 1, "Draft", none, none⟩]
      ⟨"AE001", "t", "d", "IT", "a", "b", 0, 1, "Draft", none, none⟩
      (by simp) rfl,
   (spec_C6_status_update "CA999" "Closed").2.1
      [⟨"CA001", "F001", "p", "act", 5, "Pending", none, none⟩] (by decide)⟩

/-- C4: every successful create generates its ID via `generate_id`, sets
the initial status (`"Draft"` / `"Open"` / `"Pending"`), appends exactly
one record to its own store, surfaces the new ID, and leaves the other
two stores unchanged. -/
theorem spec_C4_create_success :
    (∀ (inp : EngagementInput) (s s' : AppState) (id : String),
      createEngagementOp inp s = some (s', id) →
      generate_id "AE" s.audit_engagements (fun r => r.ID) = some id ∧
      (∃ r : Engagement, s'.audit_engagements = s.audit_engagements ++ [r] ∧
        r.ID = id ∧ r.Status = "Draft") ∧
      s'.audit_findings = s.audit_findings ∧
      s'.corrective_actions = s.corrective_actions) ∧
    (∀ (inp : FindingInput) (s s' : AppState) (id : String),
      createFindingOp inp s = some (s', id) →
      generate_id "F" s.audit_findings (fun r => r.ID) = some id ∧
      (∃ r : Finding, s'.audit_findings = s.audit_findings ++ [r] ∧
        r.ID = id ∧ r.Status = "Open") ∧
      s'.audit_engagements = s.audit_engagements ∧
      s'.corrective_actions = s.corrective_actions) ∧
    (∀ (inp : ActionInput) (s s' : AppState) (id : String),
      createActionOp inp s = some (s', id) →
      generate_id "CA" s.corrective_actions (fun r => r.ID) = some id ∧
      (∃ r : CorrectiveAction, s'.corrective_actions = s.corrective_actions ++ [r] ∧
        r.ID = id ∧ r.Status = "Pending") ∧
      s'.audit_engagements = s.audit_engagements ∧
      s'.audit_findings = s.audit_findings) := by
  refine ⟨?_, ?_, ?_⟩
  · intro inp s s' id h
    rw [createEngagementOp, add_audit_engagement] at h
    cases hg : generate_id "AE" s.audit_engagements (fun r => r.ID) with
    | none => rw [hg] at h; simp at h
    | some newId =>
      rw [hg, Option.map_some', Option.map_some', Option.some.injEq, Prod.mk.injEq] at h
      obtain ⟨hs', hid⟩ := h
      subst hs'
      subst hid
      exact ⟨rfl, ⟨_, rfl, rfl, rfl⟩, rfl, rfl⟩
  · intro inp s s' id h
    rw [createFindingOp, add_audit_finding] at h
    cases hg : generate_id "F" s.audit_findings (fun r => r.ID) with
    | none => rw [hg] at h; simp at h
    | some newId =>
      rw [hg, Option.map_some', Option.map_some', Option.some.injEq, Prod.mk.injEq] at h
      obtain ⟨hs', hid⟩ := h
      subst hs'
      subst hid
      exact ⟨rfl, ⟨_, rfl, rfl, rfl⟩, rfl, rfl⟩
  · intro inp s s' id h
    rw [createActionOp, add_corrective_action] at h
    cases hg : generate_id "CA" s.corrective_actions (fun r => r.ID) with
    | none => rw [hg] at h; simp at h
    | some newId =>
      rw [hg, Option.map_some', Option.map_some', Option.some.injEq, Prod.mk.injEq] at h
      obtain ⟨hs', hid⟩ := h
      subst hs'
      subst hid
      exact ⟨rfl, ⟨_, rfl, rfl, rfl⟩, rfl, rfl⟩

/-- C4 witness: one concrete engagement creation from the empty session. -/
theorem spec_C4_witness :
    generate_id "AE" (⟨[], [], []⟩ : AppState).audit_engagements (fun r => r.ID) =
      some "AE001" ∧
    (∃ r : Engagement,
      (⟨[⟨"AE001", "t", "d", "IT", "a", "b", 0, 1, "Draft", none, none⟩], [], []⟩ :
        AppState).audit_engagements =
        (⟨[], [], []⟩ : AppState).audit_engagements ++ [r] ∧
      r.ID = "AE001" ∧ r.Status = "Draft") ∧
    (⟨[⟨"AE001", "t", "d", "IT", "a", "b", 0, 1, "Draft", none, none⟩], [], []⟩ :
      AppState).audit_findings = (⟨[], [], []⟩ : AppState).audit_findings ∧
    (⟨[⟨"AE001", "t", "d", "IT", "a", "b", 0, 1, "Draft", none, none⟩], [], []⟩ :
      AppState).corrective_actions = (⟨[], [], []⟩ : AppState).corrective_actions :=
  spec_C4_create_success.1 ⟨"t", "d", "IT", "a", "b", 0, 1, none, none⟩ ⟨[], [], []⟩
    ⟨[⟨"AE001", "t", "d", "IT", "a", "b", 0, 1, "Draft", none, none⟩], [], []⟩ "AE001" rfl

/-- C7: the overdue KPI counts exactly the corrective actions whose
status is neither "Verified" nor "Closed" and whose due date is strictly
before the query date; a "Pending" action due yesterday is counted, a
"Closed" action with the same due date is not. -/
theorem spec_C7_overdue (actions : List CorrectiveAction) (today : Int) :
    overdue_actions actions today =
      (actions.filter fun ca =>
        decide (ca.Status ≠ "Verified" ∧ ca.Status ≠ "Closed" ∧ ca.DueDate < today)).length ∧
    (∀ ca : CorrectiveAction, ca.Status = "Pending" → ca.DueDate = today - 1 →
      overdue_actions (actions ++ [ca]) today = overdue_actions actions today + 1) ∧
    (∀ ca : CorrectiveAction, ca.Status = "Closed" →
      overdue_actions (actions ++ [ca]) today = overdue_actions actions today) := by
  have hpt : ∀ ca : CorrectiveAction,
      ((!(ca.Status == "Verified" || ca.Status == "Closed")) &&
        decide (ca.DueDate < today)) =
      decide (ca.Status ≠ "Verified" ∧ ca.Status ≠ "Closed" ∧ ca.DueDate < today) := by
    intro ca
    by_cases h1 : ca.Status = "Verified" <;> by_cases h2 : ca.Status = "Closed" <;>
      by_cases h3 : ca.DueDate < today <;> simp [h1, h2, h3]
  refine ⟨?_, ?_, ?_⟩
  · rw [overdue_actions, List.countP_eq_length_filter]
    congr 1
    exact List.filter_congr fun ca _ => hpt ca
  · intro ca hs hd
    rw [overdue_actions, overdue_actions, List.countP_append, List.countP_cons,
      List.countP_nil]
    have : ((!(ca.Status == "Verified" || ca.Status == "Closed")) &&
        decide (ca.DueDate < today)) = true := by
      rw [hs, hd]
      simp only [Bool.and_eq_true, Bool.not_eq_true', Bool.or_eq_false_iff,
        beq_eq_false_iff_ne, ne_eq, decide_eq_true_eq]
      refine ⟨⟨by decide, by decide⟩, by omega⟩
    rw [this]
    simp
  · intro ca hs
    rw [overdue_actions, overdue_actions, List.countP_append, List.countP_cons,
      List.countP_nil]
    have : ((!(ca.Status == "Verified" || ca.Status == "Closed")) &&
        decide (ca.DueDate < today)) = false := by
      rw [hs]
      simp
    rw [this]
    simp

/-- C7 witness: a pending action due yesterday counts, a closed one with
the same due date does not (query date `10`). -/
theorem spec_C7_witness :
    overdue_actions ([] ++ [⟨"CA001", "F001", "p", "act", 9, "Pending", none, none⟩]) 10 =
      overdue_actions [] 10 + 1 ∧
    overdue_actions ([] ++ [⟨"CA002", "F001", "p", "act", 9, "Closed", none, none⟩]) 10 =
      overdue_actions [] 10 :=
  ⟨(spec_C7_overdue [] 10).2.1 ⟨"CA001", "F001", "p", "act", 9, "Pending", none, none⟩
      rfl (by decide),
   (spec_C7_overdue [] 10).2.2 ⟨"CA002", "F001", "p", "act", 9, "Closed", none, none⟩ rfl⟩

theorem formatFixed1_zero : formatFixed1 0 = "0.0" := by
  have h : round ((0 : ℚ) * 10) = 0 := by norm_num
  rw [formatFixed1, h]
  rfl

theorem formatFixed1_fifty : formatFixed1 50 = "50.0" := by
  have h : round ((50 : ℚ) * 10) = 500 := by
    rw [round_eq]
    norm_num
  rw [formatFixed1, h]
  decide

/-- C8: the `% Findings Closed` KPI is `closed / total * 100` when the
store is non-empty and `0` when it is empty; the rendered metric is
`"0.0%"` for an empty store and exactly `"50.0%"` when one of two
findings is closed. -/
theorem spec_C8_percent_closed (findings : List Finding) :
    (0 < findings.length →
      percent_closed findings =
        ((findings.countP fun f => f.Status == "Closed") : ℚ) /
          (findings.length : ℚ) * 100) ∧
    (findings = [] →
      percent_closed findings = 0 ∧ percentClosedMetric findings = "0.0%") ∧
    (findings.length = 2 → (findings.countP fun f => f.Status == "Closed") = 1 →
      percent_closed findings = 50 ∧ percentClosedMetric findings = "50.0%") := by
  refine ⟨?_, ?_, ?_⟩
  · intro hpos
    rw [percent_closed]
    simp only [if_pos hpos]
  · intro hnil
    subst hnil
    refine ⟨rfl, ?_⟩
    rw [percentClosedMetric, show percent_closed [] = 0 from rfl, formatFixed1_zero]
    decide
  · intro hlen hcount
    have h50 : percent_closed findings = 50 := by
      rw [percent_closed]
      simp only [hlen, hcount]
      norm_num
    refine ⟨h50, ?_⟩
    rw [percentClosedMetric, h50, formatFixed1_fifty]
    decide

/-- C8 witness: the empty store and a concrete two-finding store with
one closed finding. -/
theorem spec_C8_witness :
    (percent_closed [] = 0 ∧ percentClosedMetric [] = "0.0%") ∧
    (percent_closed
        [⟨"F001", "AE001", "Major", "d", none, none, "Low", "r", "c", "Closed"⟩,
         ⟨"F002", "AE001", "Minor", "e", none, none, "Low", "r", "c", "Open"⟩] = 50 ∧
      percentClosedMetric
        [⟨"F001", "AE001", "Major", "d", none, none, "Low", "r", "c", "Closed"⟩,
         ⟨"F002", "AE001", "Minor", "e", none, none, "Low", "r", "c", "Open"⟩] = "50.0%") :=
  ⟨(spec_C8_percent_closed []).2.1 rfl,
   (spec_C8_percent_closed
      [⟨"F001", "AE001", "Major", "d", none, none, "Low", "r", "c", "Closed"⟩,
       ⟨"F002", "AE001", "Minor", "e", none, none, "Low", "r", "c", "Open"⟩]).2.2
      rfl (by decide)⟩

/-- C9 counterexample: the dashboard "Recent Activities" tables render
the DataFrames without dropping any column, so the raw attachment-bytes
fields (`'Audit Report Data'`, `'Evidence Data'`) are displayed there —
only the "View All" tabs drop them. -/
theorem spec_C9_counterexample :
    "Audit Report Data" ∈ dashboardEngagementDisplayColumns ∧
    "Evidence Data" ∈ dashboardFindingDisplayColumns ∧
    "Audit Report Data" ∉ viewAllEngagementColumns := by
  decide

/-- C9 (amended): the dashboard recent-activity views are exactly the
last 5 records of each store in creation order (all records when fewer
than 5 exist), but the raw attachment-bytes field is not excluded from
them. -/
theorem spec_C9_recent_views (s : AppState) :
    (dashboardRecentEngagements s).length = min 5 s.audit_engagements.length ∧
    s.audit_engagements.take (s.audit_engagements.length - 5) ++
      dashboardRecentEngagements s = s.audit_engagements ∧
    (s.audit_engagements.length ≤ 5 →
      dashboardRecentEngagements s = s.audit_engagements) ∧
    (dashboardRecentFindings s).length = min 5 s.audit_findings.length ∧
    s.audit_findings.take (s.audit_findings.length - 5) ++
      dashboardRecentFindings s = s.audit_findings ∧
    (s.audit_findings.length ≤ 5 → dashboardRecentFindings s = s.audit_findings) ∧
    "Audit Report Data" ∈ dashboardEngagementDisplayColumns ∧
    "Evidence Data" ∈ dashboardFindingDisplayColumns :=
  ⟨tail5_length _, tail5_suffix _, tail5_of_short _, tail5_length _, tail5_suffix _,
   tail5_of_short _, by decide, by decide⟩

/-- C9 witness: a concrete two-engagement store. -/
theorem spec_C9_witness :
    dashboardRecentEngagements
      ⟨[⟨"AE001", "t", "d", "IT", "a", "b", 0, 1, "Draft", none, some [7]⟩,
        ⟨"AE002", "u", "e", "IT", "a", "b", 0, 1, "Draft", none, none⟩], [], []⟩ =
      [⟨"AE001", "t", "d", "IT", "a", "b", 0, 1, "Draft", none, some [7]⟩,
       ⟨"AE002", "u", "e", "IT", "a", "b", 0, 1, "Draft", none, none⟩] :=
  (spec_C9_recent_views
    ⟨[⟨"AE001", "t", "d", "IT", "a", "b", 0, 1, "Draft", none, some [7]⟩,
      ⟨"AE002", "u", "e", "IT", "a", "b", 0, 1, "Draft", none, none⟩], [], []⟩).2.2.1
    (by decide)

/-- C10: `generate_id` depends only on the multiset of numeric suffixes
of the store's IDs — in particular it returns the same identifier for
every permutation of the store's records. -/
theorem spec_C10_perm_invariance {α β : Type} (pfx : String)
    (getId₁ : α → String) (getId₂ : β → String) (l₁ : List α) (l₂ : List β)
    (hperm : (l₁.map fun x => idSuffix pfx (getId₁ x)).Perm
      (l₂.map fun y => idSuffix pfx (getId₂ y)))
    (h₁ : ∀ x ∈ l₁, (idSuffix pfx (getId₁ x)).isSome) :
    generate_id pfx l₁ getId₁ = generate_id pfx l₂ getId₂ := by
  have h₂ : ∀ y ∈ l₂, (idSuffix pfx (getId₂ y)).isSome := by
    intro y hy
    have hmem : idSuffix pfx (getId₂ y) ∈ l₂.map fun y => idSuffix pfx (getId₂ y) :=
      List.mem_map_of_mem _ hy
    obtain ⟨x, hx, heq⟩ := List.mem_map.mp (hperm.mem_iff.mpr hmem)
    rw [← heq]
    exact h₁ x hx
  rw [generate_id_eq pfx getId₁ l₁ h₁, generate_id_eq pfx getId₂ l₂ h₂]
  have hperm' : (suffVals pfx (l₁.map getId₁)).Perm (suffVals pfx (l₂.map getId₂)) := by
    rw [suffVals, suffVals, List.map_map, List.map_map]
    have e₁ : (l₁.map fun x => (idSuffix pfx (getId₁ x)).getD 0) =
        (l₁.map fun x => idSuffix pfx (getId₁ x)).map fun o => o.getD 0 := by
      rw [List.map_map]
      rfl
    have e₂ : (l₂.map fun y => (idSuffix pfx (getId₂ y)).getD 0) =
        (l₂.map fun y => idSuffix pfx (getId₂ y)).map fun o => o.getD 0 := by
      rw [List.map_map]
      rfl
    show (l₁.map fun x => (idSuffix pfx (getId₁ x)).getD 0).Perm
      (l₂.map fun y => (idSuffix pfx (getId₂ y)).getD 0)
    rw [e₁, e₂]
    exact hperm.map _
  rw [listMax_perm hperm']

/-- C10 witness: swapping the two records of a concrete store leaves the
generated ID unchanged. -/
theorem spec_C10_witness :
    generate_id "AE" [(⟨"AE001", "t", "d", "IT", "a", "b", 0, 1, "Draft", none, none⟩ :
        Engagement),
      ⟨"AE004", "u", "e", "IT", "a", "b", 0, 1, "Draft", none, none⟩] (fun r => r.ID) =
    generate_id "AE" [(⟨"AE004", "u", "e", "IT", "a", "b", 0, 1, "Draft", none, none⟩ :
        Engagement),
      ⟨"AE001", "t", "d", "IT", "a", "b", 0, 1, "Draft", none, none⟩] (fun r => r.ID) :=
  spec_C10_perm_invariance "AE" (fun r : Engagement => r.ID) (fun r : Engagement => r.ID)
    [⟨"AE001", "t", "d", "IT", "a", "b", 0, 1, "Draft", none, none⟩,
     ⟨"AE004", "u", "e", "IT", "a", "b", 0, 1, "Draft", none, none⟩]
    [⟨"AE004", "u", "e", "IT", "a", "b", 0, 1, "Draft", none, none⟩,
     ⟨"AE001", "t", "d", "IT", "a", "b", 0, 1, "Draft", none, none⟩]
    (List.Perm.swap _ _ _) (by decide)
